import Mathlib

/-!
Verification of the Face-Recognition-Attendance core against its
natural-language specification.

The definitions below are a shallow embedding of the Python sources:

* `src/attendance_manager.py` — `AttendanceManager` (daily ledger,
  check-in/check-out state machine, cooldown tracker);
* `src/face_utils.py` — `FaceUtils` (gallery, enrollment, frame pipeline);
* `src/liveness_detection.py` — `LivenessDetector` (blink-based liveness).

Wall-clock instants are rational numbers of seconds (Python `datetime`
arithmetic on `total_seconds()`); times persisted to the ledger go through
`strftime("%H:%M:%S")`, i.e. they are truncated to whole seconds
(`ratFloor`).  Python `int(x)` is truncation toward zero (`pyInt`), and
Python `round(x, 2)` is round-half-to-even at two decimals (`round2`).
Pandas' empty-string `Check_Out` sentinel is modelled by `Option`.

Batteries marks `Rat` arithmetic `@[irreducible]`; it is unsealed here so
that concrete states of the model evaluate by `decide`.
-/

unseal Rat.mul Rat.add Rat.sub Rat.inv

/-- Python `int()` applied to a rational: truncation toward zero
(on a reduced fraction, `Int.tdiv` of numerator by denominator). -/
def pyInt (x : Rat) : Int := Int.tdiv x.num (x.den : Int)

/-- Floor of a rational; times persisted to the ledger go through
`strftime("%H:%M:%S")`, i.e. are truncated to whole seconds. -/
def ratFloor (x : Rat) : Int := Int.fdiv x.num (x.den : Int)

/-- Round-half-to-even at integer precision (Python's `round`). -/
def roundHE (y : Rat) : Int :=
  let f : Int := ratFloor y
  let r : Rat := y - (f : Rat)
  if r < 1/2 then f
  else if 1/2 < r then f + 1
  else if f % 2 = 0 then f else f + 1

/-- Python `round(x, 2)`: round to two decimal places, half to even. -/
def round2 (x : Rat) : Rat := ((roundHE (100 * x) : Int) : Rat) / 100

/-! ## Attendance data model (`attendance_manager.py`) -/

/-- One row of the daily ledger CSV (`attendance_{date}.csv`).  The
`Name`/`Department`/`Position`/`Date`/`Status` columns are copied verbatim
from the employee registry and never inspected by the state machine, so the
embedding keeps the columns the logic reads and writes: `Employee_ID`,
`Check_In`, `Check_Out` (empty-string sentinel ↦ `Option`), `Total_Hours`. -/
structure Record where
  empId : String
  checkIn : Int
  checkOut : Option Int
  totalHours : Rat
  deriving DecidableEq

/-- The dict returned by `AttendanceManager.get_current_status`. -/
structure CurrentStatus where
  isCheckedIn : Bool
  checkInTime : Option Int
  elapsedMinutes : Rat
  recordIndex : Option Nat
  hasIncompleteRecord : Bool
  alreadyCheckedInToday : Bool
  lastCheckOut : Option Int
  deriving DecidableEq

/-- Status value of a processing result (`"SUCCESS" | "INFO" | "ERROR"`). -/
inductive RStatus where
  | SUCCESS
  | INFO
  | ERROR
  deriving DecidableEq

/-- The distinct human-readable messages produced by the attendance manager,
with the numeric / time payloads that are interpolated into them. -/
inductive Msg where
  /-- "Please wait {n} seconds before trying again" -/
  | cooldownWait (secondsLeft : Int)
  /-- "has already completed attendance for today (Last check-out: {t})" -/
  | alreadyCompletedIn (lastCheckOut : Option Int)
  /-- "has already completed attendance for today" (check-out branch) -/
  | alreadyCompletedOut
  /-- "already checked in at {t}" -/
  | alreadyCheckedIn (checkInTime : Option Int)
  /-- "must check out from previous session first" -/
  | mustCheckOutFirst
  /-- "has not checked in today" -/
  | notCheckedInToday
  /-- "Must wait {n} minutes before check-out (Minimum 60 minutes required)" -/
  | mustWaitMinutes (minutesLeft : Int)
  /-- "Successfully checked in {name}" -/
  | checkedIn
  /-- "{name} is not checked in" -/
  | notCheckedIn
  /-- "Cannot check out before 60 minutes. Time elapsed: {n} minutes" -/
  | cannotCheckOutBefore (elapsedMinutes : Int)
  /-- "Successfully checked out {name} after {n} minutes" -/
  | checkedOut (elapsedMinutes : Int)
  /-- "Employee not found" -/
  | employeeNotFound
  /-- "Invalid action" -/
  | invalidAction
  /-- "Invalid mode: {mode}. Must be CHECK_IN or CHECK_OUT" -/
  | invalidMode
  /-- unreachable defensive branch of the embedding -/
  | internalError
  deriving DecidableEq

/-- The integer counts that are rendered into a message's text (waiting
seconds, waiting minutes, elapsed minutes, the constant 60 of the
minimum-checkout rule).  Used to state what a message "contains". -/
def msgNums : Msg → List Int
  | .cooldownWait n => [n]
  | .mustWaitMinutes n => [n, 60]
  | .cannotCheckOutBefore n => [60, n]
  | .checkedOut n => [n]
  | _ => []

/-- A `{status, message}` result dict. -/
structure AResult where
  status : RStatus
  msg : Msg
  deriving DecidableEq

/-- `COOLDOWN_SECONDS` -/
def COOLDOWN_SECONDS : Rat := 60

/-- `MIN_CHECKOUT_MINUTES` -/
def MIN_CHECKOUT_MINUTES : Rat := 60

/-- The pandas selection `df[df['Employee_ID'] == emp_id]`, with the frame
index (row position) carried along by `List.enum`. -/
def empRecords (ledger : List Record) (emp : String) : List (Nat × Record) :=
  ledger.enum.filter fun p => p.2.empId = emp

/-- The pandas selection `emp_records[emp_records['Check_Out'] != '']`. -/
def completedRecords (ledger : List Record) (emp : String) :
    List (Nat × Record) :=
  (empRecords ledger emp).filter fun p => p.2.checkOut.isSome

/-- `AttendanceManager.get_current_status`, for the single current date.
`ledger` is the parsed daily CSV in row order (a pandas index is a row
position, mirrored by `List.enum`); `now` is the current instant in seconds.
Taking `iloc[-1]` of a selection is `List.getLast?`. -/
def getCurrentStatus (ledger : List Record) (emp : String) (now : Rat) :
    CurrentStatus :=
  match (completedRecords ledger emp).getLast? with
  | some (_, r) =>
      { isCheckedIn := false, checkInTime := none, elapsedMinutes := 0,
        recordIndex := none, hasIncompleteRecord := false,
        alreadyCheckedInToday := true, lastCheckOut := r.checkOut }
  | none =>
      match (empRecords ledger emp).getLast? with
      | some (i, r) =>
          if r.checkOut = none then
            { isCheckedIn := true, checkInTime := some r.checkIn,
              elapsedMinutes := (now - (r.checkIn : Rat)) / 60,
              recordIndex := some i, hasIncompleteRecord := true,
              alreadyCheckedInToday := false, lastCheckOut := none }
          else
            { isCheckedIn := false, checkInTime := none, elapsedMinutes := 0,
              recordIndex := none, hasIncompleteRecord := false,
              alreadyCheckedInToday := false, lastCheckOut := none }
      | none =>
          { isCheckedIn := false, checkInTime := none, elapsedMinutes := 0,
            recordIndex := none, hasIncompleteRecord := false,
            alreadyCheckedInToday := false, lastCheckOut := none }

/-- `AttendanceManager._process_check_in`: re-reads the status and appends a
fresh open row unless an open session exists.  Returns the result dict and
the written-back ledger. -/
def processCheckIn (ledger : List Record) (emp : String) (now : Rat) :
    AResult × List Record :=
  let status := getCurrentStatus ledger emp now
  if status.isCheckedIn || status.hasIncompleteRecord then
    (⟨.ERROR, .mustCheckOutFirst⟩, ledger)
  else
    (⟨.SUCCESS, .checkedIn⟩,
      ledger ++ [{ empId := emp, checkIn := ratFloor now,
                   checkOut := none, totalHours := 0 }])

/-- `AttendanceManager._process_check_out`: re-reads the status, enforces the
minimum-duration rule, then closes the open row at `record_index`, setting
`Check_Out` and `Total_Hours = round((out − in) / 3600, 2)`. -/
def processCheckOut (ledger : List Record) (emp : String) (now : Rat) :
    AResult × List Record :=
  let status := getCurrentStatus ledger emp now
  if !status.isCheckedIn then
    (⟨.ERROR, .notCheckedIn⟩, ledger)
  else if status.elapsedMinutes < MIN_CHECKOUT_MINUTES then
    (⟨.ERROR, .cannotCheckOutBefore (pyInt status.elapsedMinutes)⟩, ledger)
  else
    match status.recordIndex with
    | some i =>
        match ledger.get? i with
        | some r =>
            let t := ratFloor now
            let th := round2 (((t - r.checkIn : Int) : Rat) / 3600)
            (⟨.SUCCESS, .checkedOut (pyInt status.elapsedMinutes)⟩,
              ledger.set i { r with checkOut := some t, totalHours := th })
        | none => (⟨.ERROR, .internalError⟩, ledger)
    | none => (⟨.ERROR, .internalError⟩, ledger)

/-- The mutable state of an `AttendanceManager` instance that the
check-in/check-out paths touch: the employee registry
(`emp_id → name`, insertion-ordered), today's ledger, and the process-wide
cooldown tracker `last_processed`. -/
structure AMState where
  employees : List (String × String)
  ledger : List Record
  lastProcessed : String → Option Rat

/-- `AttendanceManager.get_employee_by_name` (restricted to the `emp_id`
the caller extracts). -/
def lookupByName (employees : List (String × String)) (name : String) :
    Option String :=
  (employees.find? fun p => p.2 = name).map fun p => p.1

/-- Update of the `last_processed` dict. -/
def updateLP (f : String → Option Rat) (emp : String) (t : Rat) :
    String → Option Rat :=
  fun s => if s = emp then some t else f s

/-- The body of the `for name in names` loop of
`AttendanceManager.process_attendance` for one recognized label: skip
`"Unknown"` and unregistered names (no result is appended), enforce the
cooldown, then dispatch on the (already upper-cased) mode. -/
def processOne (s : AMState) (name : String) (mode : String) (now : Rat) :
    Option AResult × AMState :=
  if name = "Unknown" then (none, s) else
  match lookupByName s.employees name with
  | none => (none, s)
  | some emp =>
    let cooldownHit :=
      match s.lastProcessed emp with
      | some last => decide (now - last < COOLDOWN_SECONDS)
      | none => false
    if cooldownHit then
      let last := match s.lastProcessed emp with
        | some last => last
        | none => 0
      (some ⟨.ERROR, .cooldownWait (pyInt (COOLDOWN_SECONDS - (now - last)))⟩, s)
    else
      let status := getCurrentStatus s.ledger emp now
      if mode = "CHECK_IN" ∨ mode = "CHECK IN" then
        if status.alreadyCheckedInToday then
          (some ⟨.ERROR, .alreadyCompletedIn status.lastCheckOut⟩, s)
        else if status.isCheckedIn then
          (some ⟨.INFO, .alreadyCheckedIn status.checkInTime⟩, s)
        else if !status.hasIncompleteRecord then
          let rl := processCheckIn s.ledger emp now
          if rl.1.status = .SUCCESS then
            (some rl.1, { s with ledger := rl.2,
                                 lastProcessed := updateLP s.lastProcessed emp now })
          else
            (some rl.1, { s with ledger := rl.2 })
        else
          (some ⟨.ERROR, .mustCheckOutFirst⟩, s)
      else if mode = "CHECK_OUT" ∨ mode = "CHECK OUT" then
        if status.alreadyCheckedInToday then
          (some ⟨.ERROR, .alreadyCompletedOut⟩, s)
        else if !status.isCheckedIn then
          (some ⟨.ERROR, .notCheckedInToday⟩, s)
        else if status.elapsedMinutes < MIN_CHECKOUT_MINUTES then
          (some ⟨.ERROR,
            .mustWaitMinutes (60 - pyInt status.elapsedMinutes)⟩, s)
        else
          let rl := processCheckOut s.ledger emp now
          if rl.1.status = .SUCCESS then
            (some rl.1, { s with ledger := rl.2,
                                 lastProcessed := updateLP s.lastProcessed emp now })
          else
            (some rl.1, { s with ledger := rl.2 })
      else
        (some ⟨.ERROR, .invalidMode⟩, s)

/-- Python `str.upper()` (`mode.upper()`), character by character. -/
def strToUpper (s : String) : String := ⟨s.data.map Char.toUpper⟩

/-- `AttendanceManager.process_attendance`: upper-case the mode once, then
fold the per-name body over the recognized labels, collecting the result
dicts.  `current_time` is captured once before the loop (`now`). -/
def processAttendance (s : AMState) (names : List String) (mode : String)
    (now : Rat) : List AResult × AMState :=
  let m := strToUpper mode
  names.foldl
    (fun acc name =>
      let rs := processOne acc.2 name m now
      match rs.1 with
      | none => (acc.1, rs.2)
      | some res => (acc.1 ++ [res], rs.2))
    ([], s)

/-- `AttendanceManager.manual_attendance`: validate the employee id, then
dispatch straight to `_process_check_in` / `_process_check_out` (the
cooldown tracker is neither read nor written on this path). -/
def manualAttendance (s : AMState) (emp : String) (action : String)
    (now : Rat) : AResult × AMState :=
  if (s.employees.find? fun p => p.1 = emp).isNone then
    (⟨.ERROR, .employeeNotFound⟩, s)
  else if action = "CHECK_IN" then
    let rl := processCheckIn s.ledger emp now
    (rl.1, { s with ledger := rl.2 })
  else if action = "CHECK_OUT" then
    let rl := processCheckOut s.ledger emp now
    (rl.1, { s with ledger := rl.2 })
  else
    (⟨.ERROR, .invalidAction⟩, s)

/-- One externally triggered operation against the attendance manager. -/
inductive AOp where
  | process (names : List String) (mode : String) (now : Rat)
  | manual (emp : String) (action : String) (now : Rat)

/-- Apply one operation to the manager state (discarding the result dicts). -/
def runOp (s : AMState) : AOp → AMState
  | .process names mode now => (processAttendance s names mode now).2
  | .manual emp action now => (manualAttendance s emp action now).2

/-- Apply a sequence of operations. -/
def runOps (s : AMState) (ops : List AOp) : AMState := ops.foldl runOp s

/-- Initial manager state: a registry and an empty daily ledger, with an
empty `last_processed` dict. -/
def initAM (employees : List (String × String)) : AMState :=
  { employees := employees, ledger := [], lastProcessed := fun _ => none }

/-- Rows of the ledger that are "open" for an employee (empty `Check_Out`). -/
def isOpenFor (emp : String) (r : Record) : Bool :=
  r.empId = emp && r.checkOut.isNone

/-- Rows of the ledger that are completed for an employee. -/
def isClosedFor (emp : String) (r : Record) : Bool :=
  r.empId = emp && r.checkOut.isSome

/-- Number of open rows for an employee in a ledger. -/
def openCount (emp : String) (ledger : List Record) : Nat :=
  ledger.countP (isOpenFor emp)

/-- Whether the ledger holds a completed row for an employee. -/
def completedExists (emp : String) (ledger : List Record) : Bool :=
  ledger.any (isClosedFor emp)


/-! ## Face gallery and recognition pipeline (`face_utils.py`)

A face embedding is abstracted to a rational, with `|a - b|` as the
distance used by `face_recognition.compare_faces`; an image is the list of
encodings of its detectable faces, in detection order, and an unreadable
image (`cv2.imread` returning `None`) is `Option.none`. -/

/-- The `tolerance=0.6` of `face_recognition.compare_faces`. -/
def TOLERANCE : Rat := 3/5

/-- Distance between two (abstracted) face embeddings. -/
def faceDist (a b : Rat) : Rat := |a - b|

/-- The in-memory gallery: `known_face_encodings` and `known_face_names`,
kept index-aligned. -/
structure Gallery where
  encodings : List Rat
  names : List String
  deriving DecidableEq

/-- An image, abstracted to the encodings of its detectable faces
(`face_recognition.face_locations` finds `faces.length` faces and
`face_recognition.face_encodings` returns their encodings in order). -/
structure FImage where
  faces : List Rat
  deriving DecidableEq

/-- The match step of `FaceUtils.process_frame`: `compare_faces` against all
known encodings, then `matches.index(True)` — the FIRST gallery entry within
tolerance, in insertion order — else `"Unknown"`. -/
def matchFace (g : Gallery) (e : Rat) : String :=
  match (g.encodings.zip g.names).find? fun p =>
      decide (faceDist p.1 e ≤ TOLERANCE) with
  | some p => p.2
  | none => "Unknown"

/-- `FaceUtils.add_known_face`: read the image (`none` raises), take the
first encoding (`encodings[0]`), raising if there is none; on success append
encoding and name to the gallery. -/
def addKnownFace (g : Gallery) (img : Option FImage) (name : String) :
    Bool × Gallery :=
  match img with
  | none => (false, g)
  | some image =>
      match image.faces with
      | [] => (false, g)
      | e :: _ =>
          (true, { encodings := g.encodings ++ [e], names := g.names ++ [name] })

/-- `FaceUtils.register_new_face`: reject an unreadable image; require
`len(face_locations) == 1`; then persist the image and add it to the live
gallery via `add_known_face`. -/
def registerNewFace (g : Gallery) (img : Option FImage) (name : String) :
    Bool × Gallery :=
  match img with
  | none => (false, g)
  | some image =>
      if image.faces.length ≠ 1 then (false, g)
      else addKnownFace g (some image) name

/-- An input frame for `FaceUtils.process_frame`: its `ndim`, its channel
count (`shape[2]`), and the outcome of the detection/encoding step —
`none` when `face_recognition.face_locations`/`face_encodings` raises,
otherwise the encodings of the detected faces. -/
structure Frame where
  ndim : Nat
  channels : Nat
  detection : Option (List Rat)
  deriving DecidableEq

/-- `FaceUtils.process_frame`: a `None` frame and a malformed frame raise
`ValueError` (modelled by `Except.error`); a failure inside the detection
step is caught and degrades to the original frame with no labels; otherwise
every detected face is matched independently against the gallery. -/
def processFrame (g : Gallery) (frame : Option Frame) :
    Except String (Frame × List String) :=
  match frame with
  | none => .error "Frame is None"
  | some f =>
      if f.ndim ≠ 3 ∨ f.channels ≠ 3 then .error "Invalid frame format"
      else
        match f.detection with
        | none => .ok (f, [])
        | some encs => .ok (f, encs.map (matchFace g))

/-! ## Liveness detection (`liveness_detection.py`) -/

/-- `EYE_AR_THRESH` -/
def EYE_AR_THRESH : Rat := 3/10

/-- `EYE_AR_CONSEC_FRAMES` -/
def EYE_AR_CONSEC_FRAMES : Nat := 3

/-- The mutable counters of a `LivenessDetector`. -/
structure LState where
  counter : Nat
  totalBlinks : Nat
  lastBlinkTime : Rat
  deriving DecidableEq

/-- `LivenessDetector.reset` (and the counters set in `__init__`). -/
def resetDetector (now : Rat) : LState :=
  { counter := 0, totalBlinks := 0, lastBlinkTime := now }

/-- The state update of `LivenessDetector.detect_blink` for one face, given
its eye-aspect-ratio `ear`: below the threshold the low-EAR streak grows;
otherwise a blink is registered (with its time) if the streak reached
`EYE_AR_CONSEC_FRAMES`, and the streak resets. -/
def detectBlink (s : LState) (ear now : Rat) : LState :=
  if ear < EYE_AR_THRESH then
    { s with counter := s.counter + 1 }
  else
    { counter := 0,
      totalBlinks :=
        if EYE_AR_CONSEC_FRAMES ≤ s.counter then s.totalBlinks + 1
        else s.totalBlinks,
      lastBlinkTime :=
        if EYE_AR_CONSEC_FRAMES ≤ s.counter then now else s.lastBlinkTime }

/-- The verdicts of `LivenessDetector.check_liveness`. -/
inductive LMsg where
  /-- "No face detected" -/
  | noFace
  /-- "Live face detected" -/
  | liveFace
  /-- "Please blink naturally" -/
  | pleaseBlink
  deriving DecidableEq

/-- The `{is_live, message}` part of a liveness result. -/
structure LResult where
  isLive : Bool
  message : LMsg
  deriving DecidableEq

/-- The per-face verdict of `LivenessDetector.check_liveness`: live exactly
when at least one blink is registered (`total_blinks > 0`) and the last one
is under 3 seconds old (`time.time() - last_blink_time < 3.0`). -/
def livenessVerdict (s : LState) (now : Rat) : LResult :=
  if 0 < s.totalBlinks ∧ now - s.lastBlinkTime < 3 then ⟨true, .liveFace⟩
  else ⟨false, .pleaseBlink⟩

/-- `LivenessDetector.check_liveness`: the result starts as the no-face
verdict; each detected face (given by its EAR) runs `detect_blink` on the
shared state and overwrites the result with the verdict of the updated
state. -/
def checkLiveness (s : LState) (faces : List Rat) (now : Rat) :
    LResult × LState :=
  faces.foldl
    (fun acc ear =>
      let s' := detectBlink acc.2 ear now
      (livenessVerdict s' now, s'))
    (⟨false, .noFace⟩, s)

/-! ## Ledger purge primitives -/

/-- The per-date ledger store (`attendance_{date}.csv` files). -/
def LedgerStore := List (String × List Record)

/-- Lookup of a date's ledger file. -/
def ledgerFor (store : LedgerStore) (date : String) : Option (List Record) :=
  (store.find? fun p => p.1 = date).map fun p => p.2

/-- Modelled from the spec: the ledger-deletion primitive
`delete_ledger(date)` of §6 ("deleting a given date's ledger", §4.4).  The
management UI (`src/app.py`) invokes it as
`attendance_manager.delete_attendance_by_date(date)`, but no definition of
it appears in the provided sources; per the spec it removes the date's
ledger and returns a success indication. -/
def deleteLedger (store : LedgerStore) (date : String) :
    Bool × LedgerStore :=
  (true, store.filter fun p => p.1 ≠ date)

/-- Modelled from the spec: `delete_todays_ledger()` of §6 ("deleting only
today's ledger"), invoked from `src/app.py` as
`attendance_manager.delete_todays_attendance()`; it purges the ledger of
the current date. -/
def deleteTodaysLedger (store : LedgerStore) (today : String) :
    Bool × LedgerStore :=
  deleteLedger store today


/-! ## Concrete fixtures

States used by the concrete witnesses and counterexamples below.
Times are seconds of the day: 32400 = 09:00:00, 32700 = 09:05:00,
36060 = 10:01:00, 37800 = 10:30:00. -/

/-- A registry holding employee `E1` named `Alice`. -/
def regAlice : List (String × String) := [("E1", "Alice")]

/-- A ledger where `E1` checked in at 09:00:00 and is still checked in. -/
def openLedger : List Record :=
  [{ empId := "E1", checkIn := 32400, checkOut := none, totalHours := 0 }]

/-- A ledger where `E1` completed the cycle 09:00:00 → 10:01:00. -/
def doneLedger : List Record :=
  [{ empId := "E1", checkIn := 32400, checkOut := some 36060,
     totalHours := 51/50 }]

/-- Manager state with the open session of `openLedger`. -/
def openState : AMState :=
  { employees := regAlice, ledger := openLedger, lastProcessed := fun _ => none }

/-- Manager state with the completed cycle of `doneLedger`. -/
def doneState : AMState :=
  { employees := regAlice, ledger := doneLedger, lastProcessed := fun _ => none }

/-! # Theorems -/

/-- C6: the core exposes ledger-deletion primitives: `delete_ledger(date)`
deletes date `D`'s ledger and `delete_todays_ledger()` deletes today's,
each returning a success indication, and after a successful call the
ledger for that date no longer exists. -/
theorem delete_ledger_removes (store : LedgerStore) (date today : String) :
    (deleteLedger store date).1 = true
    ∧ ledgerFor (deleteLedger store date).2 date = none
    ∧ (deleteTodaysLedger store today).1 = true
    ∧ ledgerFor (deleteTodaysLedger store today).2 today = none := by
  have key : ∀ (st : LedgerStore) (d : String),
      ledgerFor (st.filter fun p => p.1 ≠ d) d = none := by
    intro st d
    have hf : List.find? (fun p => decide (p.1 = d))
        (List.filter (fun p => decide (p.1 ≠ d)) st) = none := by
      rw [List.find?_eq_none]
      intro p hp
      simp only [List.mem_filter] at hp
      simpa using hp.2
    simp [ledgerFor, hf]
  exact ⟨rfl, key store date, rfl, key store today⟩

/-- C8: for every frame that passes input validation, a failure of the
underlying face detection/encoding step is not propagated: `process_frame`
returns the original frame together with an empty list of labels. -/
theorem process_frame_degrades (g : Gallery) (f : Frame)
    (h1 : f.ndim = 3) (h2 : f.channels = 3) (h3 : f.detection = none) :
    processFrame g (some f) = .ok (f, []) := by
  simp [processFrame, h1, h2, h3]

/-- Witness for C8: a 3-channel frame whose detection step raises yields
the original frame and no labels. -/
theorem process_frame_degrades_witness :
    processFrame { encodings := [0], names := ["Alice"] }
        (some { ndim := 3, channels := 3, detection := none }) =
      .ok ({ ndim := 3, channels := 3, detection := none }, []) :=
  process_frame_degrades _ _ rfl rfl rfl

/-- The fold of `check_liveness` threads `detect_blink` through the state,
and as soon as at least one face was processed the returned result is the
verdict of the final state. -/
theorem checkLiveness_spec (faces : List Rat) (now : Rat) :
    ∀ (r₀ : LResult) (s₀ : LState),
      (faces.foldl
          (fun acc ear =>
            let s' := detectBlink acc.2 ear now
            (livenessVerdict s' now, s'))
          (r₀, s₀)).2 =
        faces.foldl (fun st e => detectBlink st e now) s₀
      ∧ (faces ≠ [] →
          (faces.foldl
              (fun acc ear =>
                let s' := detectBlink acc.2 ear now
                (livenessVerdict s' now, s'))
              (r₀, s₀)).1 =
            livenessVerdict (faces.foldl (fun st e => detectBlink st e now) s₀)
              now) := by
  induction faces with
  | nil => intro r₀ s₀; exact ⟨rfl, fun h => absurd rfl h⟩
  | cons e rest ih =>
      intro r₀ s₀
      rcases rest with _ | ⟨e', rest'⟩
      · exact ⟨rfl, fun _ => rfl⟩
      · simpa using ih (livenessVerdict (detectBlink s₀ e now) now)
          (detectBlink s₀ e now)

/-- C9: whenever at least one face is detected, the liveness verdict is
"live" iff at least one blink has been registered and the last one is under
3 seconds old (both judged on the state after this frame's updates);
immediately after `reset()` a single-face evaluation is never "live"; and
with no face detected the result is the distinct no-face outcome with
`is_live = false`. -/
theorem liveness_verdict_rule (s sNF : LState) (faces : List Rat)
    (now t ear nowR nowNF : Rat) (h : faces ≠ []) :
    ((checkLiveness s faces now).1.isLive = true ↔
      (0 < (faces.foldl (fun st e => detectBlink st e now) s).totalBlinks ∧
        now - (faces.foldl (fun st e => detectBlink st e now) s).lastBlinkTime
          < 3))
    ∧ (checkLiveness (resetDetector t) [ear] nowR).1.isLive = false
    ∧ (checkLiveness sNF [] nowNF).1 = ⟨false, .noFace⟩ := by
  refine ⟨?_, ?_, rfl⟩
  · have hs := (checkLiveness_spec faces now ⟨false, .noFace⟩ s).2 h
    rw [checkLiveness, hs, livenessVerdict]
    split
    · next hc => simpa using hc
    · next hc => simpa using hc
  · show (livenessVerdict (detectBlink (resetDetector t) ear nowR) nowR).isLive
        = false
    by_cases hear : ear < EYE_AR_THRESH
    · simp [detectBlink, resetDetector, livenessVerdict, hear,
        EYE_AR_CONSEC_FRAMES]
    · simp [detectBlink, resetDetector, livenessVerdict, hear,
        EYE_AR_CONSEC_FRAMES]

/-- Witness for C9: a detector that blinked 0.5 s ago (and one low-EAR frame
in progress) is judged live on a single-face frame; right after `reset()`
the same frame is not live; an empty frame yields the no-face outcome. -/
theorem liveness_verdict_rule_witness :
    ((checkLiveness { counter := 1, totalBlinks := 2, lastBlinkTime := 1000 }
        [1/2] (2001/2)).1.isLive = true ↔
      (0 < ((([1/2] : List Rat)).foldl
              (fun st e => detectBlink st e (2001/2))
              { counter := 1, totalBlinks := 2, lastBlinkTime := 1000 }).totalBlinks ∧
        (2001/2) - ((([1/2] : List Rat)).foldl
              (fun st e => detectBlink st e (2001/2))
              { counter := 1, totalBlinks := 2, lastBlinkTime := 1000 }).lastBlinkTime
          < 3))
    ∧ (checkLiveness (resetDetector 1000) [1/2] (2001/2)).1.isLive = false
    ∧ (checkLiveness { counter := 1, totalBlinks := 2, lastBlinkTime := 1000 }
        [] (2001/2)).1 = ⟨false, .noFace⟩ :=
  liveness_verdict_rule
    { counter := 1, totalBlinks := 2, lastBlinkTime := 1000 }
    { counter := 1, totalBlinks := 2, lastBlinkTime := 1000 }
    [1/2] (2001/2) 1000 (1/2) (2001/2) (2001/2) (by decide)

/-- C7: enrollment of an image with exactly one detectable face succeeds,
appends exactly the new encoding and name to the gallery (so the identity is
immediately matchable: a probe within tolerance of the new encoding that
matches no earlier entry resolves to the new name); an image with zero or
two or more faces is rejected and the gallery is unchanged. -/
theorem register_new_face_spec (g : Gallery) (img : FImage) (name : String)
    (hlen : g.encodings.length = g.names.length) :
    (img.faces.length = 1 →
      ∃ e, img.faces = [e] ∧
        registerNewFace g (some img) name =
          (true, { encodings := g.encodings ++ [e], names := g.names ++ [name] })
        ∧ ∀ probe : Rat, faceDist e probe ≤ TOLERANCE →
            (∀ k ∈ g.encodings, ¬ faceDist k probe ≤ TOLERANCE) →
            matchFace
              { encodings := g.encodings ++ [e], names := g.names ++ [name] }
              probe = name)
    ∧ (img.faces.length ≠ 1 → registerNewFace g (some img) name = (false, g)) := by
  constructor
  · intro h1
    obtain ⟨e, he⟩ := List.length_eq_one.mp h1
    refine ⟨e, he, ?_, ?_⟩
    · simp [registerNewFace, addKnownFace, h1, he]
    · intro probe hnear hfar
      have hnone : (g.encodings.zip g.names).find?
          (fun p => decide (faceDist p.1 probe ≤ TOLERANCE)) = none := by
        rw [List.find?_eq_none]
        intro p hp
        have := (List.of_mem_zip hp).1
        simpa using hfar p.1 this
      simp only [matchFace, List.zip_append hlen, List.find?_append, hnone,
        Option.none_or]
      simp [List.find?, hnear]
  · intro h1
    simp [registerNewFace, h1]

/-- Witness for C7: enrolling a one-face image into a one-entry gallery
appends it and the new identity is matched first; a zero-face image leaves
the gallery unchanged. -/
theorem register_new_face_spec_witness :
    registerNewFace { encodings := [0], names := ["Bob"] }
        (some { faces := [10] }) "Alice" =
      (true, { encodings := [0, 10], names := ["Bob", "Alice"] })
    ∧ matchFace { encodings := [0, 10], names := ["Bob", "Alice"] } 10 = "Alice"
    ∧ registerNewFace { encodings := [0], names := ["Bob"] }
        (some { faces := [] }) "Alice" =
      (false, { encodings := [0], names := ["Bob"] }) := by
  obtain ⟨e, he, hreg, hmatch⟩ :=
    (register_new_face_spec { encodings := [0], names := ["Bob"] }
      { faces := [10] } "Alice" rfl).1 rfl
  have he10 : e = 10 := by simpa using he.symm
  subst he10
  refine ⟨hreg, hmatch 10 (by decide) ?_, ?_⟩
  · intro k hk
    have hk0 : k = 0 := by simpa using hk
    subst hk0
    decide
  · exact (register_new_face_spec { encodings := [0], names := ["Bob"] }
      { faces := [] } "Alice" rfl).2 (by decide)

/-- Neither `_process_check_in` nor `_process_check_out` ever produces the
cooldown message: that message exists only in `process_attendance`. -/
theorem process_paths_no_cooldown_msg (L : List Record) (emp : String)
    (now : Rat) (k : Int) :
    (processCheckIn L emp now).1.msg ≠ .cooldownWait k
    ∧ (processCheckOut L emp now).1.msg ≠ .cooldownWait k := by
  constructor
  · rw [processCheckIn]
    split <;> simp
  · rw [processCheckOut]
    split
    · simp
    · split
      · simp
      · split
        · split <;> simp
        · simp

/-- C10: `manual_attendance` neither consults nor updates the cooldown
tracker: a manual call is never rejected with the cooldown message, the
`last_processed` map after the call is exactly what it was before, and the
call's result and ledger are unchanged if the tracker is replaced by any
other map. -/
theorem manual_attendance_ignores_cooldown (s : AMState)
    (emp action : String) (now : Rat) (f : String → Option Rat) (k : Int) :
    (manualAttendance s emp action now).2.lastProcessed = s.lastProcessed
    ∧ (manualAttendance s emp action now).1.msg ≠ .cooldownWait k
    ∧ (manualAttendance { s with lastProcessed := f } emp action now).1 =
        (manualAttendance s emp action now).1
    ∧ (manualAttendance { s with lastProcessed := f } emp action now).2.ledger =
        (manualAttendance s emp action now).2.ledger := by
  rw [manualAttendance, manualAttendance]
  split
  · exact ⟨rfl, by simp, rfl, rfl⟩
  · split
    · exact ⟨rfl, (process_paths_no_cooldown_msg s.ledger emp now k).1, rfl, rfl⟩
    · split
      · exact ⟨rfl, (process_paths_no_cooldown_msg s.ledger emp now k).2, rfl,
          rfl⟩
      · exact ⟨rfl, by simp, rfl, rfl⟩

/-- If the ledger holds a completed row for an employee, the
`completed_records` selection is non-empty. -/
theorem completedRecords_ne_nil (L : List Record) (emp : String)
    (h : completedExists emp L = true) : completedRecords L emp ≠ [] := by
  obtain ⟨r, hr, hcl⟩ := List.any_eq_true.mp h
  obtain ⟨i, hi, hget⟩ := List.getElem_of_mem hr
  simp only [isClosedFor, Bool.and_eq_true, decide_eq_true_eq] at hcl
  obtain ⟨h1, h2⟩ := hcl
  apply List.ne_nil_of_mem (a := (i, r))
  rw [completedRecords, empRecords]
  refine List.mem_filter.mpr ⟨List.mem_filter.mpr ⟨?_, by simpa using h1⟩, h2⟩
  exact List.mem_enum_iff_getElem?.mpr (by simp [hget.symm, hi])

/-- If the ledger holds no completed row for an employee, the
`completed_records` selection is empty. -/
theorem completedRecords_eq_nil (L : List Record) (emp : String)
    (h : completedExists emp L = false) : completedRecords L emp = [] := by
  rw [completedRecords, List.filter_eq_nil_iff]
  intro p hp
  rw [empRecords] at hp
  have hmem : p.2 ∈ L := List.snd_mem_of_mem_enum (List.mem_filter.mp hp).1
  have hemp : p.2.empId = emp := by simpa using (List.mem_filter.mp hp).2
  have hall := List.any_eq_false.mp h p.2 hmem
  simp only [isClosedFor, Bool.and_eq_true, decide_eq_true_eq, not_and] at hall
  simpa using hall hemp

/-- With a completed row present, `get_current_status` reports
already-checked-in-today, with every session field cleared. -/
theorem status_of_completed (L : List Record) (emp : String) (now : Rat)
    (h : completedExists emp L = true) :
    ∃ co, getCurrentStatus L emp now =
      { isCheckedIn := false, checkInTime := none, elapsedMinutes := 0,
        recordIndex := none, hasIncompleteRecord := false,
        alreadyCheckedInToday := true, lastCheckOut := co } := by
  have hne := completedRecords_ne_nil L emp h
  obtain ⟨p, hp⟩ := Option.isSome_iff_exists.mp (List.getLast?_isSome.mpr hne)
  obtain ⟨i, r⟩ := p
  refine ⟨r.checkOut, ?_⟩
  rw [getCurrentStatus, hp]

/-- Whenever `get_current_status` reports an active session, the session's
open row really is in the ledger at the reported index, and the whole
status record takes the checked-in shape. -/
theorem status_checkedIn_shape (L : List Record) (emp : String) (now : Rat)
    (h : (getCurrentStatus L emp now).isCheckedIn = true) :
    ∃ i r, L.get? i = some r ∧ r.empId = emp ∧ r.checkOut = none ∧
      getCurrentStatus L emp now =
        { isCheckedIn := true, checkInTime := some r.checkIn,
          elapsedMinutes := (now - (r.checkIn : Rat)) / 60,
          recordIndex := some i, hasIncompleteRecord := true,
          alreadyCheckedInToday := false, lastCheckOut := none } := by
  rw [getCurrentStatus] at h ⊢
  split at h
  · simp at h
  · split at h
    · next i r heq =>
        split at h
        · next hco =>
            have hmem := List.mem_of_getLast?_eq_some heq
            rw [empRecords] at hmem
            have henum := (List.mem_filter.mp hmem).1
            have hemp : r.empId = emp := by
              simpa using (List.mem_filter.mp hmem).2
            refine ⟨i, r, ?_, hemp, hco, ?_⟩
            · rw [List.get?_eq_getElem?]
              exact List.mem_enum_iff_getElem?.mp henum
            · simp [hco]
        · simp at h
    · simp at h

/-- C5: a successful check-out closes exactly the open row located by
`get_current_status` (which has `Check_Out` empty and belongs to the
employee), writing the check-out time and a `Total_Hours` equal to
`(check_out_time - check_in_time)` in hours, rounded to two decimals. -/
theorem checkout_writes_rounded_hours (L : List Record) (emp : String)
    (now : Rat) (h : (processCheckOut L emp now).1.status = .SUCCESS) :
    ∃ i r, L.get? i = some r ∧ r.empId = emp ∧ r.checkOut = none ∧
      (processCheckOut L emp now).2 =
        L.set i
          { r with checkOut := some (ratFloor now),
                   totalHours :=
                     round2 (((ratFloor now - r.checkIn : Int) : Rat) / 3600) } := by
  simp only [processCheckOut] at h ⊢
  split at h
  · exact absurd h (by simp)
  · next hch =>
    split at h
    · exact absurd h (by simp)
    · next helap =>
      split at h
      · next i heqidx =>
          split at h
          · next r heqget =>
              have hch' : (getCurrentStatus L emp now).isCheckedIn = true := by
                revert hch
                cases (getCurrentStatus L emp now).isCheckedIn <;> simp
              obtain ⟨i', r', hget', hemp', hco', hstat⟩ :=
                status_checkedIn_shape L emp now hch'
              have hi : i = i' := by
                rw [hstat] at heqidx
                exact (Option.some.inj heqidx).symm
              subst hi
              have hr : r = r' := by
                rw [heqget] at hget'
                exact Option.some.inj hget'
              subst hr
              refine ⟨i, r, heqget, hemp', hco', ?_⟩
              rw [if_neg hch, if_neg helap]
          · exact absurd h (by simp)
      · exact absurd h (by simp)

/-- Witness for C5: checking out `E1` (in at 09:00:00) at 10:30:00 records
1.5 total hours, and at 10:01:00 records 1.02 total hours. -/
theorem checkout_writes_rounded_hours_witness :
    (∃ i r, openLedger.get? i = some r ∧ r.empId = "E1" ∧ r.checkOut = none ∧
      (processCheckOut openLedger "E1" 37800).2 =
        openLedger.set i
          { r with checkOut := some (ratFloor (37800 : Rat)),
                   totalHours :=
                     round2 (((ratFloor (37800 : Rat) - r.checkIn : Int) : Rat)
                       / 3600) })
    ∧ (processCheckOut openLedger "E1" 37800).2 =
        [{ empId := "E1", checkIn := 32400, checkOut := some 37800,
           totalHours := 3/2 }]
    ∧ (processCheckOut openLedger "E1" 36060).2 =
        [{ empId := "E1", checkIn := 32400, checkOut := some 36060,
           totalHours := 51/50 }] :=
  ⟨checkout_writes_rounded_hours openLedger "E1" 37800 (by decide),
    by decide, by decide⟩

/-- C4 (amended): a check-out succeeds on any path only when at least 60
minutes have elapsed since check-in; a premature attempt is rejected, and
the rejection message on the `process_attendance` path states the remaining
minutes `60 - int(elapsed)`, while on the manual `_process_check_out` path
it states the elapsed minutes instead of the remaining minutes. -/
theorem checkout_min_duration :
    (∀ (L : List Record) (emp : String) (now : Rat),
        (processCheckOut L emp now).1.status = .SUCCESS →
        MIN_CHECKOUT_MINUTES ≤ (getCurrentStatus L emp now).elapsedMinutes)
    ∧ (∀ (L : List Record) (emp : String) (now : Rat),
        (getCurrentStatus L emp now).isCheckedIn = true →
        (getCurrentStatus L emp now).elapsedMinutes < MIN_CHECKOUT_MINUTES →
        processCheckOut L emp now =
          (⟨.ERROR, .cannotCheckOutBefore
              (pyInt (getCurrentStatus L emp now).elapsedMinutes)⟩, L))
    ∧ (∀ (s : AMState) (name emp : String) (now : Rat),
        name ≠ "Unknown" →
        lookupByName s.employees name = some emp →
        (∀ last, s.lastProcessed emp = some last →
          ¬(now - last < COOLDOWN_SECONDS)) →
        (getCurrentStatus s.ledger emp now).isCheckedIn = true →
        (getCurrentStatus s.ledger emp now).elapsedMinutes <
          MIN_CHECKOUT_MINUTES →
        processAttendance s [name] "CHECK_OUT" now =
          ([⟨.ERROR, .mustWaitMinutes
              (60 - pyInt (getCurrentStatus s.ledger emp now).elapsedMinutes)⟩],
            s)) := by
  refine ⟨?_, ?_, ?_⟩
  · intro L emp now h
    simp only [processCheckOut] at h
    split at h
    · exact absurd h (by simp)
    · split at h
      · exact absurd h (by simp)
      · next helap => exact not_lt.mp helap
  · intro L emp now hch helap
    simp [processCheckOut, hch, helap]
  · intro s name emp now hneq hlook hcd hch helap
    obtain ⟨i, r, hget, hemp, hco, hstat⟩ :=
      status_checkedIn_shape s.ledger emp now hch
    have hone : processOne s name "CHECK_OUT" now =
        (some ⟨.ERROR, .mustWaitMinutes
          (60 - pyInt (getCurrentStatus s.ledger emp now).elapsedMinutes)⟩,
          s) := by
      rw [processOne, if_neg hneq]
      simp only [hlook]
      cases hlp : s.lastProcessed emp with
      | none =>
          simp only [hlp]
          rw [hstat]
          simp [hstat]
          intro hcontra
          rw [hstat] at helap
          exact absurd helap (not_lt.mpr hcontra)
      | some last =>
          simp only [hlp, decide_eq_false (hcd last hlp)]
          rw [hstat]
          simp [hstat]
          intro hcontra
          rw [hstat] at helap
          exact absurd helap (not_lt.mpr hcontra)
    have hm : strToUpper "CHECK_OUT" = "CHECK_OUT" := by decide
    simp only [processAttendance, List.foldl_cons, List.foldl_nil, hm, hone,
      List.nil_append]

/-- Witness for C4: `E1` checked in at 09:00:00; after a successful
check-out at 10:01:00 at least 60 minutes had elapsed, and a
`process_attendance` check-out at 09:05:00 is rejected stating 55 remaining
minutes. -/
theorem checkout_min_duration_witness :
    MIN_CHECKOUT_MINUTES ≤ (getCurrentStatus openLedger "E1" 36060).elapsedMinutes
    ∧ processAttendance openState ["Alice"] "CHECK_OUT" 32700 =
        ([⟨.ERROR, .mustWaitMinutes 55⟩], openState) := by
  constructor
  · exact checkout_min_duration.1 openLedger "E1" 36060 (by decide)
  · rw [checkout_min_duration.2.2 openState "Alice" "E1" 32700
      (by decide) (by decide) (fun last hl => Option.noConfusion hl)
      (by decide) (by decide)]
    exact congrArg (fun x => (x, openState)) (by decide)

/-- Counterexample for C4 as stated: at 09:05:00, with check-in at
09:00:00, the manual-path check-out rejection message is "Cannot check out
before 60 minutes. Time elapsed: 5 minutes" — it contains the elapsed
minutes (5), not the 55 remaining minutes the claim requires. -/
theorem checkout_manual_msg_counterexample :
    (manualAttendance openState "E1" "CHECK_OUT" 32700).1 =
      ⟨.ERROR, .cannotCheckOutBefore 5⟩
    ∧ ¬ (55 : Int) ∈ msgNums
        (manualAttendance openState "E1" "CHECK_OUT" 32700).1.msg := by
  decide

/-- Whether a message is the cooldown rejection. -/
def isCooldownMsg : Msg → Bool
  | .cooldownWait _ => true
  | _ => false

/-- Manager state with the registry of `regAlice` and nothing recorded. -/
def freshState : AMState := initAM regAlice

/-- A `process_attendance` step that yields SUCCESS found the name in the
registry and stamped the cooldown tracker with the processing time; the
registry itself is unchanged. -/
theorem processOne_success (s : AMState) (name mode : String) (now : Rat)
    (r : AResult) (s' : AMState)
    (h : processOne s name mode now = (some r, s'))
    (hs : r.status = .SUCCESS) :
    name ≠ "Unknown" ∧
    ∃ emp, lookupByName s.employees name = some emp ∧
      s'.employees = s.employees ∧
      s'.lastProcessed = updateLP s.lastProcessed emp now := by
  simp only [processOne] at h
  split at h
  · simp at h
  · next hname =>
    refine ⟨hname, ?_⟩
    split at h
    · simp at h
    · next emp hlook =>
      refine ⟨emp, hlook, ?_⟩
      split at h
      · injection h with h1 h2
        injection h1 with h1
        rw [← h1] at hs
        simp at hs
      · split at h
        · split at h
          · injection h with h1 h2
            injection h1 with h1
            rw [← h1] at hs
            simp at hs
          · split at h
            · injection h with h1 h2
              injection h1 with h1
              rw [← h1] at hs
              simp at hs
            · split at h
              · split at h
                · injection h with h1 h2
                  subst h2
                  exact ⟨rfl, rfl⟩
                · next hns =>
                    injection h with h1 h2
                    injection h1 with h1
                    rw [← h1] at hs
                    exact absurd hs hns
              · injection h with h1 h2
                injection h1 with h1
                rw [← h1] at hs
                simp at hs
        · split at h
          · split at h
            · injection h with h1 h2
              injection h1 with h1
              rw [← h1] at hs
              simp at hs
            · split at h
              · injection h with h1 h2
                injection h1 with h1
                rw [← h1] at hs
                simp at hs
              · split at h
                · injection h with h1 h2
                  injection h1 with h1
                  rw [← h1] at hs
                  simp at hs
                · split at h
                  · injection h with h1 h2
                    subst h2
                    exact ⟨rfl, rfl⟩
                  · next hns =>
                      injection h with h1 h2
                      injection h1 with h1
                      rw [← h1] at hs
                      exact absurd hs hns
          · injection h with h1 h2
            injection h1 with h1
            rw [← h1] at hs
            simp at hs

/-- C3 (amended): after a call whose result for the employee is SUCCESS, a
second call for the same employee within 60 seconds — in either mode — is
rejected with the cooldown message stating `int(60 - elapsed)` remaining
seconds, and changes nothing. -/
theorem cooldown_after_success (s : AMState) (name mode1 mode2 : String)
    (t1 t2 : Rat) (r1 : AResult) (s1 : AMState)
    (h1 : processAttendance s [name] mode1 t1 = ([r1], s1))
    (hs : r1.status = .SUCCESS)
    (hlt : t2 - t1 < COOLDOWN_SECONDS) :
    processAttendance s1 [name] mode2 t2 =
      ([⟨.ERROR, .cooldownWait (pyInt (COOLDOWN_SECONDS - (t2 - t1)))⟩],
        s1) := by
  simp only [processAttendance, List.foldl_cons, List.foldl_nil] at h1
  rcases hpo : (processOne s name (strToUpper mode1) t1) with ⟨ro, so⟩
  rw [hpo] at h1
  cases ro with
  | none => simp at h1
  | some res =>
      simp only [] at h1
      injection h1 with ha hb
      have hres : res = r1 := by simpa using ha
      subst hb
      obtain ⟨hname, emp, hlook, hemps, hlp⟩ :=
        processOne_success s name (strToUpper mode1) t1 res so hpo
          (hres ▸ hs)
      have hone2 : processOne so name (strToUpper mode2) t2 =
          (some ⟨.ERROR,
            .cooldownWait (pyInt (COOLDOWN_SECONDS - (t2 - t1)))⟩, so) := by
        rw [processOne, if_neg hname]
        have hlook2 : lookupByName so.employees name = some emp := by
          rw [hemps]; exact hlook
        simp only [hlook2]
        have hcd : so.lastProcessed emp = some t1 := by
          rw [hlp]; simp [updateLP]
        simp only [hcd, decide_eq_true hlt]
        rw [if_pos trivial]
      simp only [processAttendance, List.foldl_cons, List.foldl_nil, hone2,
        List.nil_append]

/-- Witness for C3 (amended): `Alice` checks in successfully at t = 1000 s;
a second call 30 s later is rejected with "wait 30 seconds". -/
theorem cooldown_after_success_witness :
    processAttendance
        (processAttendance freshState ["Alice"] "CHECK_IN" 1000).2
        ["Alice"] "CHECK_IN" 1030 =
      ([⟨.ERROR, .cooldownWait 30⟩],
        (processAttendance freshState ["Alice"] "CHECK_IN" 1000).2) := by
  rw [cooldown_after_success freshState "Alice" "CHECK_IN" "CHECK_IN"
    1000 1030 ⟨.SUCCESS, .checkedIn⟩
    (processAttendance freshState ["Alice"] "CHECK_IN" 1000).2
    (Prod.ext (by decide) rfl) rfl (by decide)]
  exact congrArg (fun x => (x,
    (processAttendance freshState ["Alice"] "CHECK_IN" 1000).2)) (by decide)

/-- Counterexample for C3 as stated: when the first of two calls 30 s apart
fails (a check-out with nothing recorded), the second is rejected with the
same "has not checked in today" error, not with a cooldown message. -/
theorem cooldown_counterexample :
    (processAttendance freshState ["Alice"] "CHECK_OUT" 1000).1 =
      [⟨.ERROR, .notCheckedInToday⟩]
    ∧ (processAttendance
        (processAttendance freshState ["Alice"] "CHECK_OUT" 1000).2
        ["Alice"] "CHECK_OUT" 1030).1 = [⟨.ERROR, .notCheckedInToday⟩]
    ∧ ((processAttendance
        (processAttendance freshState ["Alice"] "CHECK_OUT" 1000).2
        ["Alice"] "CHECK_OUT" 1030).1.map fun r => isCooldownMsg r.msg) =
      [false] := by
  refine ⟨by decide, by decide, by decide⟩

/-- C1 (amended): once the daily ledger holds a completed row for an
employee, every `process_attendance` call for that employee — in any mode —
produces no SUCCESS result and leaves the ledger unchanged, and a manual
check-out is likewise rejected without modifying the ledger; a manual
check-in, however, is NOT blocked: it succeeds and appends a new open
row. -/
theorem blocked_after_completion (s : AMState) (name emp : String)
    (hlook : lookupByName s.employees name = some emp)
    (hdone : completedExists emp s.ledger = true) :
    (∀ (mode : String) (now : Rat),
        (processAttendance s [name] mode now).2.ledger = s.ledger
        ∧ ∀ r ∈ (processAttendance s [name] mode now).1,
            r.status ≠ .SUCCESS)
    ∧ (∀ now : Rat,
        (manualAttendance s emp "CHECK_OUT" now).1.status = .ERROR
        ∧ (manualAttendance s emp "CHECK_OUT" now).2.ledger = s.ledger)
    ∧ (∀ now : Rat,
        (manualAttendance s emp "CHECK_IN" now).1.status = .SUCCESS
        ∧ (manualAttendance s emp "CHECK_IN" now).2.ledger =
            s.ledger ++ [{ empId := emp, checkIn := ratFloor now,
                           checkOut := none, totalHours := 0 }]) := by
  have hfind : (s.employees.find? fun p => p.1 = emp).isNone = false := by
    rw [lookupByName] at hlook
    rcases hq : s.employees.find? fun p => p.2 = name with _ | q
    · rw [hq] at hlook; simp at hlook
    · rw [hq] at hlook
      have hq1 : q.1 = emp := by simpa using hlook
      have hqmem := List.mem_of_find?_eq_some hq
      have hsome : (s.employees.find? fun p => p.1 = emp).isSome := by
        rw [List.find?_isSome]
        exact ⟨q, hqmem, by simp [hq1]⟩
      rcases hfs : s.employees.find? fun p => p.1 = emp with _ | v
      · rw [hfs] at hsome; simp at hsome
      · simp [hfs]
  refine ⟨?_, ?_, ?_⟩
  · intro mode now
    obtain ⟨co, hst⟩ := status_of_completed s.ledger emp now hdone
    have hone : (processOne s name (strToUpper mode) now).2 = s
        ∧ ∀ r, (processOne s name (strToUpper mode) now).1 = some r →
            r.status ≠ .SUCCESS := by
      rw [processOne]
      split
      · exact ⟨rfl, fun r hr => absurd hr (by simp)⟩
      · simp only [hlook]
        split
        · exact ⟨rfl, fun r hr => by
            rw [← Option.some.inj hr]; simp⟩
        · split
          · simp only [hst]
            rw [if_pos trivial]
            exact ⟨rfl, fun r hr => by
              rw [← Option.some.inj hr]; simp⟩
          · split
            · simp only [hst]
              rw [if_pos trivial]
              exact ⟨rfl, fun r hr => by
                rw [← Option.some.inj hr]; simp⟩
            · exact ⟨rfl, fun r hr => by
                rw [← Option.some.inj hr]; simp⟩
    simp only [processAttendance, List.foldl_cons, List.foldl_nil]
    rcases hpo : (processOne s name (strToUpper mode) now) with ⟨ro, so⟩
    have hso : so = s := by rw [← hone.1, hpo]
    subst hso
    cases ro with
    | none => exact ⟨rfl, by simp⟩
    | some res =>
        refine ⟨rfl, ?_⟩
        intro r hr
        have : r = res := by simpa using hr
        subst this
        exact hone.2 r (by rw [hpo])
  · intro now
    obtain ⟨co, hst⟩ := status_of_completed s.ledger emp now hdone
    have hno : ¬ (s.employees.find? fun p => p.1 = emp).isNone = true := by
      rw [hfind]; simp
    rw [manualAttendance, if_neg hno, if_neg (by decide), if_pos rfl,
      processCheckOut, hst]
    exact ⟨rfl, rfl⟩
  · intro now
    obtain ⟨co, hst⟩ := status_of_completed s.ledger emp now hdone
    have hno : ¬ (s.employees.find? fun p => p.1 = emp).isNone = true := by
      rw [hfind]; simp
    rw [manualAttendance, if_neg hno, if_pos rfl, processCheckIn, hst]
    exact ⟨rfl, rfl⟩

/-- Witness for C1 (amended): with `E1`'s completed 09:00→10:01 cycle on
file, a recognition-path check-out leaves the ledger unchanged, a manual
check-out errors, and a manual check-in succeeds. -/
theorem blocked_after_completion_witness :
    (processAttendance doneState ["Alice"] "CHECK_OUT" 40000).2.ledger =
      doneState.ledger
    ∧ (manualAttendance doneState "E1" "CHECK_OUT" 40000).1.status = .ERROR
    ∧ (manualAttendance doneState "E1" "CHECK_IN" 40000).1.status =
        .SUCCESS := by
  have h := blocked_after_completion doneState "Alice" "E1" (by decide)
    (by decide)
  exact ⟨(h.1 "CHECK_OUT" 40000).1, (h.2.1 40000).1, (h.2.2 40000).1⟩

/-- Counterexample for C1 as stated: `E1` completed a cycle
(09:00:00 → 10:01:00), yet a `manual_attendance` check-in at 11:06:40 is
not rejected — it returns SUCCESS and appends a second row for `(E1, D)`. -/
theorem blocked_after_completion_counterexample :
    (manualAttendance doneState "E1" "CHECK_IN" 40000).1.status = .SUCCESS
    ∧ (manualAttendance doneState "E1" "CHECK_IN" 40000).2.ledger =
        doneLedger ++ [{ empId := "E1", checkIn := 40000, checkOut := none,
                         totalHours := 0 }] := by
  decide

/-- The operation sequence of C2's failing input: manual check-in 09:00:00,
manual check-out 10:01:00, then two further manual check-ins at 10:02:00
and 10:03:00. -/
def dupOps : List AOp :=
  [ .manual "E1" "CHECK_IN" 32400,
    .manual "E1" "CHECK_OUT" 36060,
    .manual "E1" "CHECK_IN" 36120,
    .manual "E1" "CHECK_IN" 36180 ]

/-- C2 fails on the code: from an empty ledger, the four manual operations
of `dupOps` drive the daily ledger into a state with TWO rows for `E1`
that both have an empty `Check_Out` — `get_current_status` short-circuits
on the completed row and reports `has_incomplete_record = False` although
an incomplete record exists, so `_process_check_in` appends a second open
row. -/
theorem two_open_rows_reachable :
    openCount "E1" (runOps (initAM regAlice) dupOps).ledger = 2
    ∧ (runOps (initAM regAlice) dupOps).ledger =
        [{ empId := "E1", checkIn := 32400, checkOut := some 36060,
           totalHours := 51/50 },
         { empId := "E1", checkIn := 36120, checkOut := none,
           totalHours := 0 },
         { empId := "E1", checkIn := 36180, checkOut := none,
           totalHours := 0 }]
    ∧ (getCurrentStatus (runOps (initAM regAlice)
          (dupOps.take 3)).ledger "E1" 36180).hasIncompleteRecord = false
    ∧ ∃ p ∈ (runOps (initAM regAlice) (dupOps.take 3)).ledger,
        isOpenFor "E1" p = true := by
  refine ⟨by decide, by decide, by decide, ?_⟩
  exact ⟨{ empId := "E1", checkIn := 36120, checkOut := none,
           totalHours := 0 }, by decide, by decide⟩

/-- Witness for C10: a manual check-out with an armed cooldown tracker
(last event one second ago) behaves exactly as with an empty tracker, is
not rejected with a cooldown message, and leaves the tracker untouched. -/
theorem manual_attendance_ignores_cooldown_witness :
    (manualAttendance openState "E1" "CHECK_OUT" 32700).2.lastProcessed =
      openState.lastProcessed
    ∧ (manualAttendance openState "E1" "CHECK_OUT" 32700).1.msg ≠
        .cooldownWait 59
    ∧ (manualAttendance { openState with lastProcessed := fun _ => some 32699 }
          "E1" "CHECK_OUT" 32700).1 =
        (manualAttendance openState "E1" "CHECK_OUT" 32700).1 := by
  have h := manual_attendance_ignores_cooldown openState "E1" "CHECK_OUT"
    32700 (fun _ => some 32699) 59
  exact ⟨h.1, h.2.1, h.2.2.1⟩
